import Mathlib

set_option maxRecDepth 100000

/-!
A verification development for the image upload/validation/storage module of
the `sentul-golf-be` repository (`utils` package: `ValidateImageFile`,
`verifyMagicBytes`, `isValidHEIC`, `SaveImage`, `DeleteImage`,
`PrependBaseURL`).

Bytes are modelled as `Nat` (values 0..255 in practice), byte buffers as
`List Nat`, Go strings as `List Char` (all relevant data is ASCII), and the
filesystem as an association list from paths to file contents.  Fallible
operations return `Except`.

The module calls Go's `net/http.DetectContentType` (go 1.21); that function
is embedded below (`detectContentType`) following `net/http/sniff.go`
byte-for-byte: the signature table order, the whitespace-skipping for HTML/XML
signatures, masked/exact matching, the MP4 box scan and the trailing
text-vs-binary heuristic.
-/

/-- Go `net/http` `isWS`: HTTP sniffing whitespace bytes `\t \n \x0c \r space`. -/
def isWS (b : Nat) : Bool :=
  decide (b = 9 ∨ b = 10 ∨ b = 12 ∨ b = 13 ∨ b = 32)

/-- Go `net/http` `isTT`: tag-terminating bytes `space` and `>`. -/
def isTT (b : Nat) : Bool :=
  decide (b = 32 ∨ b = 62)

/-- Byte list of an ASCII string literal (used to transcribe Go signature tables). -/
def strBytes (s : String) : List Nat :=
  s.toList.map Char.toNat

/-- Go `htmlSig.match` on already whitespace-trimmed data: compare the
signature case-insensitively (data byte is masked with `0xDF` when the
signature byte is an ASCII capital), then require a tag-terminating byte.
Running off the end of the data is the same as Go's up-front length check. -/
def htmlMatch : List Nat → List Nat → Bool
  | [], data =>
    match data with
    | [] => false
    | t :: _ => isTT t
  | _ :: _, [] => false
  | s :: ss, d :: ds =>
    if (if 65 ≤ s ∧ s ≤ 90 then d &&& 223 else d) = s then htmlMatch ss ds else false

/-- Go `maskedSig.match`: every pattern byte must equal the corresponding data
byte AND'ed with the mask byte; too-short data fails (as does a mask/pattern
length mismatch, which never occurs in the table). -/
def maskedMatch : List Nat → List Nat → List Nat → Bool
  | [], [], _ => true
  | m :: ms, p :: ps, d :: ds => if d &&& m = p then maskedMatch ms ps ds else false
  | _, _, _ => false

/-- Go `exactSig.match`: `bytes.HasPrefix data sig`. -/
def exactMatch : List Nat → List Nat → Bool
  | [], _ => true
  | _ :: _, [] => false
  | s :: ss, d :: ds => if d = s then exactMatch ss ds else false

/-- Big-endian 32-bit read of the first four bytes (Go `binary.BigEndian.Uint32`). -/
def readBE32 (d : List Nat) : Nat :=
  d.getD 0 0 * 16777216 + d.getD 1 0 * 65536 + d.getD 2 0 * 256 + d.getD 3 0

/-- Go `mp4Sig.match` brand loop: `for st := 8; st < boxSize; st += 4`,
skipping `st == 12`, looking for the three bytes `mp4`.  The fuel argument
makes the recursion structural; `boxSize + 1` fuel always suffices. -/
def mp4BrandLoop (data : List Nat) (boxSize : Nat) : Nat → Nat → Bool
  | 0, _ => false
  | fuel + 1, st =>
    if st < boxSize then
      if st = 12 then mp4BrandLoop data boxSize fuel (st + 4)
      else if data.getD st 0 = 109 ∧ data.getD (st + 1) 0 = 112 ∧ data.getD (st + 2) 0 = 52 then
        true
      else mp4BrandLoop data boxSize fuel (st + 4)
    else false

/-- Go `mp4Sig.match`: a plausible leading box size, an `ftyp` box at bytes
4..7, then the brand scan. -/
def mp4Match (data : List Nat) : Bool :=
  if data.length < 12 then false
  else
    let boxSize := readBE32 data
    if data.length < boxSize ∨ ¬ boxSize % 4 = 0 then false
    else if data.getD 4 0 = 102 ∧ data.getD 5 0 = 116 ∧ data.getD 6 0 = 121 ∧ data.getD 7 0 = 112 then
      mp4BrandLoop data boxSize (boxSize + 1) 8
    else false

/-- Byte classes Go's trailing `textSig` treats as binary (anything else is text). -/
def isBinaryByte (b : Nat) : Bool :=
  decide (b ≤ 8 ∨ b = 11 ∨ (14 ≤ b ∧ b ≤ 26) ∨ (28 ≤ b ∧ b ≤ 31))

/-- Go `textSig.match` on already whitespace-trimmed data. -/
def textMatch (t : List Nat) : Bool :=
  t.all (fun b => ! isBinaryByte b)

/-- The mask of the Embedded OpenType signature: 34 zero bytes then `FF FF`. -/
def eotMask : List Nat := List.replicate 34 0 ++ [255, 255]

/-- The pattern of the Embedded OpenType signature: 34 zero bytes then `LP`. -/
def eotPat : List Nat := List.replicate 34 0 ++ [76, 80]

/-- Go `http.DetectContentType` (go 1.21 `net/http/sniff.go`): truncate to 512
bytes, strip sniffing whitespace for the HTML/XML/text signatures, then try
the signature table in order, falling back to `application/octet-stream`. -/
def detectContentType (data0 : List Nat) : String :=
  let data := data0.take 512
  let t := data.dropWhile isWS
  if htmlMatch (strBytes "<!DOCTYPE HTML") t then "text/html; charset=utf-8"
  else if htmlMatch (strBytes "<HTML") t then "text/html; charset=utf-8"
  else if htmlMatch (strBytes "<HEAD") t then "text/html; charset=utf-8"
  else if htmlMatch (strBytes "<SCRIPT") t then "text/html; charset=utf-8"
  else if htmlMatch (strBytes "<IFRAME") t then "text/html; charset=utf-8"
  else if htmlMatch (strBytes "<H1") t then "text/html; charset=utf-8"
  else if htmlMatch (strBytes "<DIV") t then "text/html; charset=utf-8"
  else if htmlMatch (strBytes "<FONT") t then "text/html; charset=utf-8"
  else if htmlMatch (strBytes "<TABLE") t then "text/html; charset=utf-8"
  else if htmlMatch (strBytes "<A") t then "text/html; charset=utf-8"
  else if htmlMatch (strBytes "<STYLE") t then "text/html; charset=utf-8"
  else if htmlMatch (strBytes "<TITLE") t then "text/html; charset=utf-8"
  else if htmlMatch (strBytes "<B") t then "text/html; charset=utf-8"
  else if htmlMatch (strBytes "<BODY") t then "text/html; charset=utf-8"
  else if htmlMatch (strBytes "<BR") t then "text/html; charset=utf-8"
  else if htmlMatch (strBytes "<P") t then "text/html; charset=utf-8"
  else if htmlMatch (strBytes "<!--") t then "text/html; charset=utf-8"
  else if maskedMatch [255, 255, 255, 255, 255] (strBytes "<?xml") t then "text/xml; charset=utf-8"
  else if exactMatch (strBytes "%PDF-") data then "application/pdf"
  else if exactMatch (strBytes "%!PS-Adobe-") data then "application/postscript"
  else if maskedMatch [255, 255, 0, 0] [254, 255, 0, 0] data then "text/plain; charset=utf-16be"
  else if maskedMatch [255, 255, 0, 0] [255, 254, 0, 0] data then "text/plain; charset=utf-16le"
  else if maskedMatch [255, 255, 255, 0] [239, 187, 191, 0] data then "text/plain; charset=utf-8"
  else if exactMatch [0, 0, 1, 0] data then "image/x-icon"
  else if exactMatch [0, 0, 2, 0] data then "image/x-icon"
  else if exactMatch (strBytes "BM") data then "image/bmp"
  else if exactMatch (strBytes "GIF87a") data then "image/gif"
  else if exactMatch (strBytes "GIF89a") data then "image/gif"
  else if maskedMatch [255, 255, 255, 255, 0, 0, 0, 0, 255, 255, 255, 255, 255, 255]
      [82, 73, 70, 70, 0, 0, 0, 0, 87, 69, 66, 80, 86, 80] data then "image/webp"
  else if exactMatch [137, 80, 78, 71, 13, 10, 26, 10] data then "image/png"
  else if exactMatch [255, 216, 255] data then "image/jpeg"
  else if maskedMatch [255, 255, 255, 255] (strBytes ".snd") data then "audio/basic"
  else if maskedMatch [255, 255, 255, 255, 0, 0, 0, 0, 255, 255, 255, 255]
      [70, 79, 82, 77, 0, 0, 0, 0, 65, 73, 70, 70] data then "audio/aiff"
  else if maskedMatch [255, 255, 255] (strBytes "ID3") data then "audio/mpeg"
  else if maskedMatch [255, 255, 255, 255, 255] [79, 103, 103, 83, 0] data then "application/ogg"
  else if maskedMatch [255, 255, 255, 255, 255, 255, 255, 255]
      [77, 84, 104, 100, 0, 0, 0, 6] data then "audio/midi"
  else if maskedMatch [255, 255, 255, 255, 0, 0, 0, 0, 255, 255, 255, 255]
      [82, 73, 70, 70, 0, 0, 0, 0, 65, 86, 73, 32] data then "video/avi"
  else if maskedMatch [255, 255, 255, 255, 0, 0, 0, 0, 255, 255, 255, 255]
      [82, 73, 70, 70, 0, 0, 0, 0, 87, 65, 86, 69] data then "audio/wave"
  else if mp4Match data then "video/mp4"
  else if exactMatch [26, 69, 223, 163] data then "video/webm"
  else if maskedMatch eotMask eotPat data then "application/vnd.ms-fontobject"
  else if exactMatch [0, 1, 0, 0] data then "font/ttf"
  else if exactMatch (strBytes "OTTO") data then "font/otf"
  else if exactMatch (strBytes "ttcf") data then "font/collection"
  else if exactMatch (strBytes "wOFF") data then "font/woff"
  else if exactMatch (strBytes "wOF2") data then "font/woff2"
  else if exactMatch [31, 139, 8] data then "application/x-gzip"
  else if exactMatch [80, 75, 3, 4] data then "application/zip"
  else if exactMatch [82, 97, 114, 33, 26, 7, 0] data then "application/x-rar-compressed"
  else if exactMatch [82, 97, 114, 33, 26, 7, 1, 0] data then "application/x-rar-compressed"
  else if exactMatch [0, 97, 115, 109] data then "application/wasm"
  else if textMatch t then "text/plain; charset=utf-8"
  else "application/octet-stream"

/-- `MaxImageSize = 5 * 1024 * 1024` from the source. -/
def maxImageSize : Nat := 5 * 1024 * 1024

/-- The `allowedMimeTypes` map from the source. -/
def allowedMimeTypes (ct : String) : Bool :=
  decide (ct = "image/jpeg" ∨ ct = "image/jpg" ∨ ct = "image/png" ∨
    ct = "image/heic" ∨ ct = "image/webp")

/-- The `allowedExtensions` map from the source. -/
def allowedExtensions (ext : List Char) : Bool :=
  decide (ext = ".jpg".toList ∨ ext = ".jpeg".toList ∨ ext = ".png".toList ∨
    ext = ".heic".toList ∨ ext = ".webp".toList)

/-- Go `filepath.Ext` scans the path from its last character backwards, stops
at a path separator, and returns the suffix from the first `.` it meets.  The
helper walks the reversed path, accumulating the characters seen so far in
forward order. -/
def filepathExtAux : List Char → List Char → List Char
  | [], _ => []
  | c :: rest, acc =>
    if c = '/' then []
    else if c = '.' then '.' :: acc
    else filepathExtAux rest (c :: acc)

/-- Go `filepath.Ext`. -/
def filepathExt (p : List Char) : List Char :=
  filepathExtAux p.reverse []

/-- Go `strings.ToLower` restricted to ASCII (all filenames and extensions in
play are ASCII): map capital letters to lowercase. -/
def asciiLower (c : Char) : Char :=
  if 'A' ≤ c ∧ c ≤ 'Z' then Char.ofNat (c.toNat + 32) else c

/-- Lowercasing of a Go string (`strings.ToLower` on ASCII data). -/
def toLowerStr (s : List Char) : List Char :=
  s.map asciiLower

/-- `isValidHEIC` from the source: buffer at least 12 bytes, `ftyp` at bytes
4..7, and brand `heic` or `mif1` at bytes 8..11. -/
def isValidHEIC (buffer : List Nat) : Bool :=
  if buffer.length < 12 then false
  else if ¬ (buffer.getD 4 0 = 102 ∧ buffer.getD 5 0 = 116 ∧
      buffer.getD 6 0 = 121 ∧ buffer.getD 7 0 = 112) then false
  else decide ((buffer.getD 8 0 = 104 ∧ buffer.getD 9 0 = 101 ∧
      buffer.getD 10 0 = 105 ∧ buffer.getD 11 0 = 99) ∨
    (buffer.getD 8 0 = 109 ∧ buffer.getD 9 0 = 105 ∧
      buffer.getD 10 0 = 102 ∧ buffer.getD 11 0 = 49))

/-- `verifyMagicBytes` from the source: switch on the detected content type
(JPEG / PNG / WebP signatures), defaulting to the HEIC check when the
lower-cased extension is `.heic`, and `false` otherwise. -/
def verifyMagicBytes (buffer : List Nat) (contentType : String) (ext : List Char) : Bool :=
  if contentType = "image/jpeg" then
    decide (3 ≤ buffer.length ∧ buffer.getD 0 0 = 255 ∧ buffer.getD 1 0 = 216 ∧
      buffer.getD 2 0 = 255)
  else if contentType = "image/png" then
    decide (4 ≤ buffer.length ∧ buffer.getD 0 0 = 137 ∧ buffer.getD 1 0 = 80 ∧
      buffer.getD 2 0 = 78 ∧ buffer.getD 3 0 = 71)
  else if contentType = "image/webp" then
    decide (12 ≤ buffer.length ∧ buffer.getD 0 0 = 82 ∧ buffer.getD 1 0 = 73 ∧
      buffer.getD 2 0 = 70 ∧ buffer.getD 3 0 = 70 ∧ buffer.getD 8 0 = 87 ∧
      buffer.getD 9 0 = 69 ∧ buffer.getD 10 0 = 66 ∧ buffer.getD 11 0 = 80)
  else if ext = ".heic".toList then isValidHEIC buffer
  else false

/-- Rejection reasons of `ValidateImageFile` (the source returns `error`
values with fixed message shapes; one constructor per distinct message). -/
inductive ValErr where
  | tooLarge
  | empty
  | extNotAllowed
  | heicMismatch
  | contentTypeNotAllowed
  | signatureMismatch
deriving DecidableEq

/-- `multipart.FileHeader` restricted to the two fields the source reads:
the declared original filename and the declared byte size. -/
structure FileHeader where
  filename : List Char
  size : Nat
deriving DecidableEq

/-- The 512-byte read of `ValidateImageFile`: Go allocates a zeroed 512-byte
buffer and reads the file prefix into it, so the buffer passed on to sniffing
is the first `min 512 n` content bytes followed by zero padding. -/
def readBuffer (content : List Nat) : List Nat :=
  content.take 512 ++ List.replicate (512 - content.length) 0

/-- The content-dependent tail of `ValidateImageFile`: MIME allow-list on the
sniffed type with the HEIC exception, then the magic-byte verification (the
source always runs `verifyMagicBytes` once the MIME gate has been passed,
including via the HEIC branch). -/
def contentChecks (buffer : List Nat) (ext : List Char) : Except ValErr Unit :=
  let contentType := detectContentType buffer
  if allowedMimeTypes contentType then
    if verifyMagicBytes buffer contentType ext then Except.ok ()
    else Except.error ValErr.signatureMismatch
  else if ext = ".heic".toList then
    if isValidHEIC buffer then
      if verifyMagicBytes buffer contentType ext then Except.ok ()
      else Except.error ValErr.signatureMismatch
    else Except.error ValErr.heicMismatch
  else Except.error ValErr.contentTypeNotAllowed

/-- `ValidateImageFile` from the source: size gates on the declared size
(too-large first, then empty), the case-insensitive extension allow-list,
then the checks over the 512-byte sniff buffer. -/
def validateImageFile (content : List Nat) (header : FileHeader) : Except ValErr Unit :=
  if maxImageSize < header.size then Except.error ValErr.tooLarge
  else if header.size = 0 then Except.error ValErr.empty
  else
    let ext := toLowerStr (filepathExt header.filename)
    if allowedExtensions ext then contentChecks (readBuffer content) ext
    else Except.error ValErr.extNotAllowed

/-- The `/uploads/` marker `PrependBaseURL` searches for. -/
def uploadsMarker : List Char := "/uploads/".toList

/-- Go `strings.Index` (first occurrence of `pat` in the string, `none` when
absent; `some 0` for an empty pattern). -/
def strIndex (pat : List Char) : List Char → Option Nat
  | [] => if List.isPrefixOf pat ([] : List Char) then some 0 else none
  | c :: rest =>
    if List.isPrefixOf pat (c :: rest) then some 0
    else (strIndex pat rest).map (fun i => i + 1)

/-- `PrependBaseURL` from the source: keep empty inputs unchanged; if the URL
contains `/uploads/`, strip everything before that marker and prepend the
base; otherwise keep absolute `http(s)://` URLs and prepend the base to
anything else. -/
def prependBaseURL (imageURL baseURL : List Char) : List Char :=
  if imageURL = [] ∨ baseURL = [] then imageURL
  else
    match strIndex uploadsMarker imageURL with
    | some idx => baseURL ++ imageURL.drop idx
    | none =>
      if List.isPrefixOf "http://".toList imageURL ∨
          List.isPrefixOf "https://".toList imageURL then imageURL
      else baseURL ++ imageURL

/-- The filesystem as an association list from paths to byte contents
(first binding wins). -/
abbrev FS := List (List Char × List Nat)

/-- `os.Stat`/read of a path in the filesystem model. -/
def fsLookup (fs : FS) (p : List Char) : Option (List Nat) :=
  match fs with
  | [] => none
  | e :: rest => if e.1 = p then some e.2 else fsLookup rest p

/-- `os.Remove` in the filesystem model: drop every binding of the path. -/
def fsRemove (fs : FS) (p : List Char) : FS :=
  match fs with
  | [] => []
  | e :: rest => if e.1 = p then fsRemove rest p else e :: fsRemove rest p

/-- `os.Create` / a completed write in the filesystem model: the path now maps
to the given content (a pre-existing file at the path is truncated away,
exactly as `os.Create` does). -/
def fsInsert (fs : FS) (p : List Char) (c : List Nat) : FS :=
  (p, c) :: fsRemove fs p

/-- Go `strings.TrimPrefix imagePath "/"`: drop one leading slash if present. -/
def trimLeadingSlash (s : List Char) : List Char :=
  match s with
  | '/' :: rest => rest
  | s => s

/-- Go `filepath.Join "." p`, modelled as the identity on nonempty paths and
`"."` on the empty path.  (`filepath.Join` also runs `Clean`, which collapses
duplicate slashes and dot segments; no claim in this development depends on
that normalization, and the stored asset URLs the module itself produces are
already clean.) -/
def joinDot (p : List Char) : List Char :=
  if p = [] then ['.'] else p

/-- The URL-to-filesystem-path conversion performed by `DeleteImage`. -/
def urlToPath (imagePath : List Char) : List Char :=
  joinDot (trimLeadingSlash imagePath)

/-- The only failure `DeleteImage` can surface (a filesystem error from
`os.Remove`). -/
inductive DelErr where
  | deleteFailed
deriving DecidableEq

/-- `DeleteImage` from the source: empty path is a no-op success; a path whose
file does not exist (`os.Stat` says `IsNotExist`) is a no-op success; an
existing file is removed, with `removeOk` modelling whether the `os.Remove`
call itself succeeds (permission/IO faults). -/
def deleteImage (fs : FS) (imagePath : List Char) (removeOk : Bool) : Except DelErr FS :=
  if imagePath = [] then Except.ok fs
  else
    let filePath := urlToPath imagePath
    match fsLookup fs filePath with
    | none => Except.ok fs
    | some _ =>
      if removeOk then Except.ok (fsRemove fs filePath)
      else Except.error DelErr.deleteFailed

/-- `ImageUploadResult` from the source. -/
structure ImageUploadResult where
  filename : List Char
  path : List Char
  url : List Char
  size : Nat
deriving DecidableEq

/-- Fault model for the filesystem steps of `SaveImage`: whether `MkdirAll`,
`os.Create`, `io.Copy`, the re-`Open` and `os.Stat` succeed, and the bytes
actually present on disk after a successful copy (`diskContent` equals the
uploaded content in a fault-free run; letting it differ models truncation,
encoding corruption during the copy, or on-disk tampering between the write
and the re-read — exactly what the post-write re-validation exists to catch). -/
structure Faults where
  mkdirOk : Bool
  createOk : Bool
  copyOk : Bool
  diskContent : List Nat
  reopenOk : Bool
  statOk : Bool

/-- The error outcomes of `SaveImage`, one per `return nil, err` site. -/
inductive SaveErr where
  | validation (e : ValErr)
  | mkdirFailed
  | createFailed
  | copyFailed
  | reopenFailed
  | revalidation (e : ValErr)
  | statFailed
deriving DecidableEq

/-- The generated unique filename `fmt.Sprintf("%s_%d%s", uuid, unixTime, ext)`;
the UUID and timestamp components are parameters (nondeterministic inputs). -/
def genFilename (uuidStr timeStr ext : List Char) : List Char :=
  uuidStr ++ '_' :: timeStr ++ ext

/-- `SaveImage` from the source, as a function from the initial filesystem to
the result and the final filesystem.  Steps in source order: validate; ensure
the category directory ( `filepath.Join` is modelled as `/`-concatenation with
`Clean` stripping the leading `./` of `UploadDir`); create the file; copy
(on failure `os.Remove` the partial file); re-open (on failure remove);
re-validate the on-disk bytes against a temporary header carrying the
generated filename and the caller's declared size (on failure remove);
`os.Stat` for the final size (on failure return the error with NO removal, as
in the source); finally return the stored asset. -/
def saveImage (fs : FS) (content : List Nat) (header : FileHeader)
    (subfolder uuidStr timeStr : List Char) (flt : Faults) :
    Except SaveErr ImageUploadResult × FS :=
  match validateImageFile content header with
  | Except.error e => (Except.error (SaveErr.validation e), fs)
  | Except.ok () =>
    if ¬ flt.mkdirOk then (Except.error SaveErr.mkdirFailed, fs)
    else
      let ext := toLowerStr (filepathExt header.filename)
      let filename := genFilename uuidStr timeStr ext
      let fullPath := "uploads/".toList ++ subfolder ++ '/' :: filename
      if ¬ flt.createOk then (Except.error SaveErr.createFailed, fs)
      else
        let fs1 := fsInsert fs fullPath []
        if ¬ flt.copyOk then (Except.error SaveErr.copyFailed, fsRemove fs1 fullPath)
        else
          let fs2 := fsInsert fs1 fullPath flt.diskContent
          if ¬ flt.reopenOk then (Except.error SaveErr.reopenFailed, fsRemove fs2 fullPath)
          else
            match validateImageFile flt.diskContent ⟨filename, header.size⟩ with
            | Except.error e => (Except.error (SaveErr.revalidation e), fsRemove fs2 fullPath)
            | Except.ok () =>
              if ¬ flt.statOk then (Except.error SaveErr.statFailed, fs2)
              else
                let imageURL := "/uploads/".toList ++ subfolder ++ '/' :: filename
                (Except.ok ⟨filename, fullPath, imageURL, flt.diskContent.length⟩, fs2)

/-- A fault-free `Faults` record whose on-disk bytes are the uploaded content. -/
def noFaults (content : List Nat) : Faults :=
  ⟨true, true, true, content, true, true⟩

theorem readBuffer_length (content : List Nat) : (readBuffer content).length = 512 := by
  simp [readBuffer]
  omega

theorem validate_ok_iff (content : List Nat) (header : FileHeader) :
    validateImageFile content header = Except.ok () ↔
      header.size ≤ maxImageSize ∧ ¬ header.size = 0 ∧
        allowedExtensions (toLowerStr (filepathExt header.filename)) = true ∧
        contentChecks (readBuffer content) (toLowerStr (filepathExt header.filename)) =
          Except.ok () := by
  simp only [validateImageFile]
  constructor
  · intro h
    by_cases h1 : maxImageSize < header.size
    · rw [if_pos h1] at h; exact Except.noConfusion h
    · rw [if_neg h1] at h
      by_cases h2 : header.size = 0
      · rw [if_pos h2] at h; exact Except.noConfusion h
      · rw [if_neg h2] at h
        by_cases h3 : allowedExtensions (toLowerStr (filepathExt header.filename)) = true
        · rw [if_pos h3] at h
          exact ⟨by omega, h2, h3, h⟩
        · rw [if_neg h3] at h; exact Except.noConfusion h
  · rintro ⟨hs, h2, h3, hc⟩
    rw [if_neg (by omega : ¬ maxImageSize < header.size), if_neg h2, if_pos h3]
    exact hc

theorem contentChecks_ok_verify (buffer : List Nat) (ext : List Char)
    (h : contentChecks buffer ext = Except.ok ()) :
    verifyMagicBytes buffer (detectContentType buffer) ext = true := by
  simp only [contentChecks] at h
  split at h
  · split at h
    · assumption
    · exact Except.noConfusion h
  · split at h
    · split at h
      · split at h
        · assumption
        · exact Except.noConfusion h
      · exact Except.noConfusion h
    · exact Except.noConfusion h

/-- C7: the size gate rejects a declared size of 0 with the `file is empty`
reason and any declared size above 5 MiB with the too-large reason; both
decisions are taken before any byte of the source is read, which the
statement expresses by quantifying over an arbitrary content: the result is
the same for every byte source. -/
theorem c7_size_gates (content : List Nat) (filename : List Char) (s : Nat) :
    validateImageFile content ⟨filename, 0⟩ = Except.error ValErr.empty ∧
      (maxImageSize < s →
        validateImageFile content ⟨filename, s⟩ = Except.error ValErr.tooLarge) := by
  constructor
  · simp [validateImageFile, maxImageSize]
  · intro h
    simp only [validateImageFile]
    rw [if_pos h]

/-- Witness for `c7_size_gates` at declared sizes 0 and 6 MiB. -/
theorem c7_size_gates_witness :
    validateImageFile [7] ⟨"a.jpg".toList, 0⟩ = Except.error ValErr.empty ∧
      validateImageFile [7] ⟨"a.jpg".toList, 6 * 1024 * 1024⟩ = Except.error ValErr.tooLarge :=
  ⟨(c7_size_gates [7] "a.jpg".toList (6 * 1024 * 1024)).1,
   (c7_size_gates [7] "a.jpg".toList (6 * 1024 * 1024)).2 (by decide)⟩

/-- C8: the 4-byte buffer `FF D8 FF D9` declared as `a.jpg` of size 4 is
accepted: the extension is allowed, the sniffer returns `image/jpeg`, and
the JPEG magic-byte check passes. -/
theorem c8_jpeg_scenario :
    validateImageFile [255, 216, 255, 217] ⟨"a.jpg".toList, 4⟩ = Except.ok () ∧
      allowedExtensions (toLowerStr (filepathExt "a.jpg".toList)) = true ∧
      detectContentType (readBuffer [255, 216, 255, 217]) = "image/jpeg" ∧
      verifyMagicBytes (readBuffer [255, 216, 255, 217]) "image/jpeg" ".jpg".toList = true :=
  ⟨rfl, by decide, by decide, by decide⟩

/-- C10: the buffer `ValidateImageFile` hands to content sniffing and to the
signature checks always has exactly 512 entries, every position past the
source's length reads as the zero byte, and in particular all the length
guards of `verifyMagicBytes` (3, 4 and 12 bytes) hold on this path. -/
theorem c10_sniff_buffer_shape (content : List Nat) :
    (readBuffer content).length = 512 ∧
      (∀ i, content.length ≤ i → i < 512 → (readBuffer content).getD i 1 = 0) ∧
      3 ≤ (readBuffer content).length ∧ 4 ≤ (readBuffer content).length ∧
      12 ≤ (readBuffer content).length := by
  refine ⟨readBuffer_length content, ?_, ?_, ?_, ?_⟩
  · intro i hge hlt
    have htake : content.take 512 = content := List.take_of_length_le (by omega)
    simp only [readBuffer, htake, List.getD_eq_getElem?_getD]
    rw [List.getElem?_append_right (by omega)]
    rw [List.getElem?_replicate_of_lt (by omega)]
    rfl
  · rw [readBuffer_length content]; omega
  · rw [readBuffer_length content]; omega
  · rw [readBuffer_length content]; omega

/-- Witness for `c10_sniff_buffer_shape` on a 3-byte source at position 100. -/
theorem c10_sniff_buffer_shape_witness :
    (readBuffer [1, 2, 3]).length = 512 ∧ (readBuffer [1, 2, 3]).getD 100 1 = 0 ∧
      12 ≤ (readBuffer [1, 2, 3]).length :=
  ⟨(c10_sniff_buffer_shape [1, 2, 3]).1,
   (c10_sniff_buffer_shape [1, 2, 3]).2.1 100 (by decide) (by decide),
   (c10_sniff_buffer_shape [1, 2, 3]).2.2.2.2⟩

theorem fsLookup_fsRemove (fs : FS) (p : List Char) : fsLookup (fsRemove fs p) p = none := by
  induction fs with
  | nil => rfl
  | cons e rest ih =>
    by_cases h : e.1 = p
    · simp [fsRemove, h, ih]
    · simp [fsRemove, fsLookup, h, ih]

/-- C6: deleting a URL that does not map to an existing file is a no-op
success, whatever the state of the low-level remove call; and after any
successful delete, deleting the same URL again succeeds (so two deletes in a
row on one URL succeed). -/
theorem c6_delete_idempotent (fs : FS) (url : List Char) (r1 r2 : Bool) :
    (fsLookup fs (urlToPath url) = none → deleteImage fs url r1 = Except.ok fs) ∧
      (∀ fs2, deleteImage fs url r1 = Except.ok fs2 →
        deleteImage fs2 url r2 = Except.ok fs2) := by
  constructor
  · intro hnone
    simp only [deleteImage]
    by_cases hu : url = []
    · rw [if_pos hu]
    · rw [if_neg hu, hnone]
  · intro fs2 h
    simp only [deleteImage] at h
    by_cases hu : url = []
    · rw [if_pos hu] at h
      injection h with h2
      subst h2
      simp only [deleteImage]
      rw [if_pos hu]
    · rw [if_neg hu] at h
      cases hl : fsLookup fs (urlToPath url) with
      | none =>
        rw [hl] at h
        injection h with h2
        subst h2
        simp only [deleteImage]
        rw [if_neg hu, hl]
      | some c =>
        rw [hl] at h
        by_cases hr : r1 = true
        · rw [if_pos hr] at h
          injection h with h2
          subst h2
          simp only [deleteImage]
          rw [if_neg hu, fsLookup_fsRemove]
        · rw [if_neg hr] at h
          exact Except.noConfusion h

/-- Witness for `c6_delete_idempotent`: a URL with no file is a success, and
the second delete right after a successful delete of `/uploads/news/x.jpg`
succeeds as well. -/
theorem c6_delete_idempotent_witness :
    deleteImage ([] : FS) "/uploads/news/gone.jpg".toList true = Except.ok [] ∧
      deleteImage ([] : FS) "/uploads/news/x.jpg".toList true = Except.ok [] :=
  ⟨(c6_delete_idempotent [] "/uploads/news/gone.jpg".toList true true).1 rfl,
   (c6_delete_idempotent [("uploads/news/x.jpg".toList, [1])] "/uploads/news/x.jpg".toList
      true true).2 [] rfl⟩

theorem verifyMagic_of_unallowed (buffer : List Nat) (ct : String)
    (h : ¬ allowedMimeTypes ct = true) :
    verifyMagicBytes buffer ct ".heic".toList = isValidHEIC buffer := by
  have h1 : ¬ ct = "image/jpeg" := fun hc => h (by simp [allowedMimeTypes, hc])
  have h2 : ¬ ct = "image/png" := fun hc => h (by simp [allowedMimeTypes, hc])
  have h3 : ¬ ct = "image/webp" := fun hc => h (by simp [allowedMimeTypes, hc])
  simp only [verifyMagicBytes]
  rw [if_neg h1, if_neg h2, if_neg h3]
  simp only [if_true]

/-- C4: for a candidate declared `.heic` (with a valid declared size) whose
512-byte sniff buffer is detected as a type outside the allow-list,
validation accepts exactly when `isValidHEIC` holds of the buffer, and
`isValidHEIC` holds exactly when bytes 4..7 are `ftyp` and bytes 8..11 are
`heic` or `mif1` — the magic-byte check alone decides. -/
theorem c4_heic_bypass (content : List Nat) (s : Nat)
    (hs0 : ¬ s = 0) (hsm : s ≤ maxImageSize)
    (hct : ¬ allowedMimeTypes (detectContentType (readBuffer content)) = true) :
    (validateImageFile content ⟨"a.heic".toList, s⟩ = Except.ok () ↔
        isValidHEIC (readBuffer content) = true) ∧
      (isValidHEIC (readBuffer content) = true ↔
        ((readBuffer content).getD 4 0 = 102 ∧ (readBuffer content).getD 5 0 = 116 ∧
            (readBuffer content).getD 6 0 = 121 ∧ (readBuffer content).getD 7 0 = 112) ∧
          (((readBuffer content).getD 8 0 = 104 ∧ (readBuffer content).getD 9 0 = 101 ∧
              (readBuffer content).getD 10 0 = 105 ∧ (readBuffer content).getD 11 0 = 99) ∨
            ((readBuffer content).getD 8 0 = 109 ∧ (readBuffer content).getD 9 0 = 105 ∧
              (readBuffer content).getD 10 0 = 102 ∧ (readBuffer content).getD 11 0 = 49))) := by
  have hext : toLowerStr (filepathExt "a.heic".toList) = ".heic".toList := by decide
  have hlen : ¬ (readBuffer content).length < 12 := by rw [readBuffer_length]; omega
  constructor
  · rw [validate_ok_iff]
    simp only [hext]
    constructor
    · rintro ⟨-, -, -, hc⟩
      simp only [contentChecks] at hc
      rw [if_neg hct] at hc
      simp only [if_true] at hc
      by_cases hh : isValidHEIC (readBuffer content) = true
      · exact hh
      · rw [if_neg hh] at hc
        exact Except.noConfusion hc
    · intro hh
      refine ⟨hsm, hs0, by decide, ?_⟩
      simp only [contentChecks]
      rw [if_neg hct]
      simp only [if_true]
      rw [if_pos hh, verifyMagic_of_unallowed _ _ hct, if_pos hh]
  · simp only [isValidHEIC]
    rw [if_neg hlen]
    constructor
    · intro h
      by_cases hf : (readBuffer content).getD 4 0 = 102 ∧ (readBuffer content).getD 5 0 = 116 ∧
          (readBuffer content).getD 6 0 = 121 ∧ (readBuffer content).getD 7 0 = 112
      · refine ⟨hf, ?_⟩
        rw [if_neg (not_not_intro hf)] at h
        exact of_decide_eq_true h
      · rw [if_pos hf] at h
        exact Bool.noConfusion h
    · rintro ⟨hf, hb⟩
      rw [if_neg (not_not_intro hf)]
      exact decide_eq_true hb

/-- A 12-byte buffer with `ftyp` at bytes 4..7 and brand `heic` at 8..11. -/
def heicSample : List Nat := [0, 0, 0, 0, 102, 116, 121, 112, 104, 101, 105, 99]

/-- Witness for `c4_heic_bypass` on `heicSample` (sniffed as
`application/octet-stream`, which is not in the allow-list). -/
theorem c4_heic_bypass_witness :
    (validateImageFile heicSample ⟨"a.heic".toList, 12⟩ = Except.ok () ↔
        isValidHEIC (readBuffer heicSample) = true) ∧
      (isValidHEIC (readBuffer heicSample) = true ↔
        ((readBuffer heicSample).getD 4 0 = 102 ∧ (readBuffer heicSample).getD 5 0 = 116 ∧
            (readBuffer heicSample).getD 6 0 = 121 ∧ (readBuffer heicSample).getD 7 0 = 112) ∧
          (((readBuffer heicSample).getD 8 0 = 104 ∧ (readBuffer heicSample).getD 9 0 = 101 ∧
              (readBuffer heicSample).getD 10 0 = 105 ∧
              (readBuffer heicSample).getD 11 0 = 99) ∨
            ((readBuffer heicSample).getD 8 0 = 109 ∧ (readBuffer heicSample).getD 9 0 = 105 ∧
              (readBuffer heicSample).getD 10 0 = 102 ∧
              (readBuffer heicSample).getD 11 0 = 49))) :=
  c4_heic_bypass heicSample 12 (by decide) (by decide) (by decide)

theorem fsLookup_fsInsert (fs : FS) (p : List Char) (c : List Nat) :
    fsLookup (fsInsert fs p c) p = some c := by
  simp [fsInsert, fsLookup]

theorem fsRemove_of_lookup_none (fs : FS) (p : List Char) (h : fsLookup fs p = none) :
    fsRemove fs p = fs := by
  induction fs with
  | nil => rfl
  | cons e rest ih =>
    simp only [fsLookup] at h
    by_cases he : e.1 = p
    · rw [if_pos he] at h
      exact Option.noConfusion h
    · rw [if_neg he] at h
      simp only [fsRemove]
      rw [if_neg he, ih h]

theorem fsRemove_fsInsert (fs : FS) (p : List Char) (c : List Nat) :
    fsRemove (fsInsert fs p c) p = fsRemove fs p := by
  simp only [fsInsert, fsRemove, if_true]
  exact fsRemove_of_lookup_none _ _ (fsLookup_fsRemove fs p)

theorem filepathExtAux_no_dot (r : List Char) (tail : List Char)
    (h : ∀ c ∈ r, ¬ c = '.' ∧ ¬ c = '/') (acc : List Char) :
    filepathExtAux (r ++ '.' :: tail) acc = '.' :: (r.reverse ++ acc) := by
  induction r generalizing acc with
  | nil =>
    simp [filepathExtAux]
  | cons c r ih =>
    have hc := h c (by simp)
    simp only [List.cons_append, filepathExtAux, List.append_eq]
    rw [if_neg hc.2, if_neg hc.1, ih (fun x hx => h x (by simp [hx])) (c :: acc)]
    simp

theorem filepathExt_tail (xs tail : List Char)
    (h : ∀ c ∈ tail, ¬ c = '.' ∧ ¬ c = '/') :
    filepathExt (xs ++ '.' :: tail) = '.' :: tail := by
  unfold filepathExt
  rw [List.reverse_append, List.reverse_cons, List.append_assoc]
  rw [List.singleton_append]
  rw [filepathExtAux_no_dot tail.reverse xs.reverse
    (fun c hc => h c (List.mem_reverse.mp hc)) []]
  simp

theorem allowedExtensions_shape (ext : List Char) (h : allowedExtensions ext = true) :
    toLowerStr ext = ext ∧
      ∃ tail, ext = '.' :: tail ∧ ∀ c ∈ tail, ¬ c = '.' ∧ ¬ c = '/' := by
  rcases of_decide_eq_true h with h5 | h5 | h5 | h5 | h5 <;> subst h5
  · exact ⟨by decide, "jpg".toList, by decide, by decide⟩
  · exact ⟨by decide, "jpeg".toList, by decide, by decide⟩
  · exact ⟨by decide, "png".toList, by decide, by decide⟩
  · exact ⟨by decide, "heic".toList, by decide, by decide⟩
  · exact ⟨by decide, "webp".toList, by decide, by decide⟩

/-- Lower-casing the extension of the generated filename gives back the
(already lower-cased, allow-listed) extension of the original filename. -/
theorem saveExt_eq (header : FileHeader) (uuidStr timeStr : List Char)
    (h : allowedExtensions (toLowerStr (filepathExt header.filename)) = true) :
    toLowerStr (filepathExt (genFilename uuidStr timeStr
        (toLowerStr (filepathExt header.filename)))) =
      toLowerStr (filepathExt header.filename) := by
  obtain ⟨hlow, tail, heq, htail⟩ := allowedExtensions_shape _ h
  rw [genFilename, heq]
  have hassoc : uuidStr ++ ('_' :: timeStr) ++ '.' :: tail =
      (uuidStr ++ '_' :: timeStr) ++ '.' :: tail := by
    simp [List.append_assoc]
  rw [hassoc, filepathExt_tail _ _ htail, ← heq]
  exact hlow

/-- C9: the post-write re-validation inside `SaveImage` runs against a
temporary header whose size field is the caller's originally declared size:
when the original candidate validates and the on-disk bytes' 512-byte buffer
passes the content checks, the commit succeeds even though the persisted
length `d.length` differs from the declared size — the EMPTY/TOO_LARGE gates
of the re-validation never look at the persisted length, and the returned
asset's size is the persisted length. -/
theorem c9_revalidation_uses_declared_size (fs : FS) (content d : List Nat)
    (header : FileHeader) (subfolder uuidStr timeStr : List Char)
    (hok : validateImageFile content header = Except.ok ())
    (hlen : ¬ d.length = header.size)
    (hchecks : contentChecks (readBuffer d) (toLowerStr (filepathExt header.filename)) =
      Except.ok ()) :
    saveImage fs content header subfolder uuidStr timeStr ⟨true, true, true, d, true, true⟩ =
      (Except.ok
        ⟨genFilename uuidStr timeStr (toLowerStr (filepathExt header.filename)),
          "uploads/".toList ++ subfolder ++ '/' ::
            genFilename uuidStr timeStr (toLowerStr (filepathExt header.filename)),
          "/uploads/".toList ++ subfolder ++ '/' ::
            genFilename uuidStr timeStr (toLowerStr (filepathExt header.filename)),
          d.length⟩,
       fsInsert
         (fsInsert fs ("uploads/".toList ++ subfolder ++ '/' ::
           genFilename uuidStr timeStr (toLowerStr (filepathExt header.filename))) [])
         ("uploads/".toList ++ subfolder ++ '/' ::
           genFilename uuidStr timeStr (toLowerStr (filepathExt header.filename))) d) := by
  obtain ⟨hs, h0, hext, -⟩ := (validate_ok_iff content header).mp hok
  have hreval : validateImageFile d
      ⟨genFilename uuidStr timeStr (toLowerStr (filepathExt header.filename)), header.size⟩ =
      Except.ok () := by
    rw [validate_ok_iff]
    refine ⟨hs, h0, ?_, ?_⟩
    · show allowedExtensions (toLowerStr (filepathExt (genFilename uuidStr timeStr
        (toLowerStr (filepathExt header.filename))))) = true
      rw [saveExt_eq header uuidStr timeStr hext]
      exact hext
    · show contentChecks (readBuffer d) (toLowerStr (filepathExt (genFilename uuidStr timeStr
        (toLowerStr (filepathExt header.filename))))) = Except.ok ()
      rw [saveExt_eq header uuidStr timeStr hext]
      exact hchecks
  simp [saveImage, hok, hreval]

/-- Witness for `c9_revalidation_uses_declared_size`: the on-disk content
`FF D8 FF` (3 bytes) differs from the declared size 4 yet commits. -/
theorem c9_revalidation_uses_declared_size_witness :
    saveImage [] [255, 216, 255, 217] ⟨"a.jpg".toList, 4⟩ "news".toList "u".toList "1".toList
        ⟨true, true, true, [255, 216, 255], true, true⟩ =
      (Except.ok
        ⟨genFilename "u".toList "1".toList (toLowerStr (filepathExt "a.jpg".toList)),
          "uploads/".toList ++ "news".toList ++ '/' ::
            genFilename "u".toList "1".toList (toLowerStr (filepathExt "a.jpg".toList)),
          "/uploads/".toList ++ "news".toList ++ '/' ::
            genFilename "u".toList "1".toList (toLowerStr (filepathExt "a.jpg".toList)),
          List.length [255, 216, 255]⟩,
       fsInsert
         (fsInsert [] ("uploads/".toList ++ "news".toList ++ '/' ::
           genFilename "u".toList "1".toList (toLowerStr (filepathExt "a.jpg".toList))) [])
         ("uploads/".toList ++ "news".toList ++ '/' ::
           genFilename "u".toList "1".toList (toLowerStr (filepathExt "a.jpg".toList)))
         [255, 216, 255]) :=
  c9_revalidation_uses_declared_size [] [255, 216, 255, 217] [255, 216, 255]
    ⟨"a.jpg".toList, 4⟩ "news".toList "u".toList "1".toList rfl (by decide) rfl

/-- C1: whenever `SaveImage` returns a stored asset, the bytes at the asset's
path in the final filesystem are exactly the persisted bytes, those bytes
re-validate in full (against the temporary header carrying the generated
filename and the declared size), and in particular the magic-byte signature
check for the sniffed content type of the persisted bytes returns true. -/
theorem c1_commit_postcondition (fs fs2 : FS) (content : List Nat) (header : FileHeader)
    (subfolder uuidStr timeStr : List Char) (flt : Faults) (res : ImageUploadResult)
    (h : saveImage fs content header subfolder uuidStr timeStr flt = (Except.ok res, fs2)) :
    fsLookup fs2 res.path = some flt.diskContent ∧
      validateImageFile flt.diskContent
        ⟨genFilename uuidStr timeStr (toLowerStr (filepathExt header.filename)),
          header.size⟩ = Except.ok () ∧
      verifyMagicBytes (readBuffer flt.diskContent)
        (detectContentType (readBuffer flt.diskContent))
        (toLowerStr (filepathExt (genFilename uuidStr timeStr
          (toLowerStr (filepathExt header.filename))))) = true := by
  simp only [saveImage] at h
  cases hv : validateImageFile content header with
  | error e =>
    rw [hv] at h
    injection h with h1 h2
    exact Except.noConfusion h1
  | ok u =>
    cases u
    rw [hv] at h
    by_cases h1 : flt.mkdirOk = true
    · rw [if_neg (not_not_intro h1)] at h
      by_cases h2 : flt.createOk = true
      · rw [if_neg (not_not_intro h2)] at h
        by_cases h3 : flt.copyOk = true
        · rw [if_neg (not_not_intro h3)] at h
          by_cases h4 : flt.reopenOk = true
          · rw [if_neg (not_not_intro h4)] at h
            cases hr : validateImageFile flt.diskContent
                ⟨genFilename uuidStr timeStr (toLowerStr (filepathExt header.filename)),
                  header.size⟩ with
            | error e2 =>
              rw [hr] at h
              injection h with hl hr2
              exact Except.noConfusion hl
            | ok u2 =>
              cases u2
              rw [hr] at h
              by_cases h5 : flt.statOk = true
              · rw [if_neg (not_not_intro h5)] at h
                injection h with hl hfs
                injection hl with hres
                subst hres
                subst hfs
                refine ⟨?_, rfl, ?_⟩
                · show fsLookup _ ("uploads/".toList ++ subfolder ++ '/' ::
                    genFilename uuidStr timeStr (toLowerStr (filepathExt header.filename))) =
                    some flt.diskContent
                  exact fsLookup_fsInsert _ _ _
                · exact contentChecks_ok_verify _ _
                    ((validate_ok_iff _ _).mp hr).2.2.2
              · rw [if_pos h5] at h
                injection h with hl hfs
                exact Except.noConfusion hl
          · rw [if_pos h4] at h
            injection h with hl hfs
            exact Except.noConfusion hl
        · rw [if_pos h3] at h
          injection h with hl hfs
          exact Except.noConfusion hl
      · rw [if_pos h2] at h
        injection h with hl hfs
        exact Except.noConfusion hl
    · rw [if_pos h1] at h
      injection h with hl hfs
      exact Except.noConfusion hl

/-- Witness for `c1_commit_postcondition` on a fault-free JPEG commit. -/
theorem c1_commit_postcondition_witness :
    fsLookup [("uploads/news/u_1.jpg".toList, [255, 216, 255, 217])]
        (ImageUploadResult.path ⟨"u_1.jpg".toList, "uploads/news/u_1.jpg".toList,
          "/uploads/news/u_1.jpg".toList, 4⟩) = some [255, 216, 255, 217] ∧
      validateImageFile [255, 216, 255, 217]
        ⟨genFilename "u".toList "1".toList (toLowerStr (filepathExt "a.jpg".toList)), 4⟩ =
        Except.ok () ∧
      verifyMagicBytes (readBuffer [255, 216, 255, 217])
        (detectContentType (readBuffer [255, 216, 255, 217]))
        (toLowerStr (filepathExt (genFilename "u".toList "1".toList
          (toLowerStr (filepathExt "a.jpg".toList))))) = true :=
  c1_commit_postcondition [] [("uploads/news/u_1.jpg".toList, [255, 216, 255, 217])]
    [255, 216, 255, 217] ⟨"a.jpg".toList, 4⟩ "news".toList "u".toList "1".toList
    (noFaults [255, 216, 255, 217])
    ⟨"u_1.jpg".toList, "uploads/news/u_1.jpg".toList, "/uploads/news/u_1.jpg".toList, 4⟩ rfl

/-- C2 counterexample: a commit in which everything succeeds except the final
`os.Stat` (file-info) call returns an error, yet the fully written, validated
file is still present on disk afterwards — the source has no `os.Remove` on
that path (routes.go lines 295-298). -/
theorem c2_stat_failure_residual_file :
    (saveImage [] [255, 216, 255, 217] ⟨"a.jpg".toList, 4⟩ "news".toList "u".toList "1".toList
        ⟨true, true, true, [255, 216, 255, 217], true, false⟩).1 =
      Except.error SaveErr.statFailed ∧
      fsLookup (saveImage [] [255, 216, 255, 217] ⟨"a.jpg".toList, 4⟩ "news".toList "u".toList
          "1".toList ⟨true, true, true, [255, 216, 255, 217], true, false⟩).2
        "uploads/news/u_1.jpg".toList = some [255, 216, 255, 217] :=
  ⟨rfl, rfl⟩

/-- C2 amended: for every call to `SaveImage` that returns an error — except a
failure of the final `os.Stat` step after successful re-validation — the
filesystem afterwards equals the filesystem before, provided the generated
target path was fresh: nothing is written on reject, and a copy, re-open or
re-validation failure removes the partially or fully written file before
returning. -/
theorem c2_no_residual_on_failure (fs fs2 : FS) (content : List Nat) (header : FileHeader)
    (subfolder uuidStr timeStr : List Char) (flt : Faults) (e : SaveErr)
    (hfresh : fsLookup fs ("uploads/".toList ++ subfolder ++ '/' ::
        genFilename uuidStr timeStr (toLowerStr (filepathExt header.filename))) = none)
    (h : saveImage fs content header subfolder uuidStr timeStr flt = (Except.error e, fs2))
    (hstat : ¬ e = SaveErr.statFailed) :
    fs2 = fs := by
  simp only [saveImage] at h
  cases hv : validateImageFile content header with
  | error e2 =>
    rw [hv] at h
    injection h with hl hfs
    exact hfs.symm
  | ok u =>
    cases u
    rw [hv] at h
    by_cases h1 : flt.mkdirOk = true
    · rw [if_neg (not_not_intro h1)] at h
      by_cases h2 : flt.createOk = true
      · rw [if_neg (not_not_intro h2)] at h
        by_cases h3 : flt.copyOk = true
        · rw [if_neg (not_not_intro h3)] at h
          by_cases h4 : flt.reopenOk = true
          · rw [if_neg (not_not_intro h4)] at h
            cases hr : validateImageFile flt.diskContent
                ⟨genFilename uuidStr timeStr (toLowerStr (filepathExt header.filename)),
                  header.size⟩ with
            | error e2 =>
              rw [hr] at h
              injection h with hl hfs
              rw [← hfs, fsRemove_fsInsert, fsRemove_fsInsert,
                fsRemove_of_lookup_none _ _ hfresh]
            | ok u2 =>
              cases u2
              rw [hr] at h
              by_cases h5 : flt.statOk = true
              · rw [if_neg (not_not_intro h5)] at h
                injection h with hl hfs
                exact Except.noConfusion hl
              · rw [if_pos h5] at h
                injection h with hl hfs
                injection hl with he
                exact absurd he.symm hstat
          · rw [if_pos h4] at h
            injection h with hl hfs
            rw [← hfs, fsRemove_fsInsert, fsRemove_fsInsert,
              fsRemove_of_lookup_none _ _ hfresh]
        · rw [if_pos h3] at h
          injection h with hl hfs
          rw [← hfs, fsRemove_fsInsert, fsRemove_of_lookup_none _ _ hfresh]
      · rw [if_pos h2] at h
        injection h with hl hfs
        exact hfs.symm
    · rw [if_pos h1] at h
      injection h with hl hfs
      exact hfs.symm

/-- Witness for `c2_no_residual_on_failure`: a copy failure on a fresh path
leaves the (empty) filesystem unchanged. -/
theorem c2_no_residual_on_failure_witness : ([] : FS) = ([] : FS) :=
  c2_no_residual_on_failure [] [] [255, 216, 255, 217] ⟨"a.jpg".toList, 4⟩ "news".toList
    "u".toList "1".toList ⟨true, true, false, [255, 216, 255, 217], true, true⟩
    SaveErr.copyFailed rfl rfl (by decide)

/-- C3 counterexample: the claim fails in both directions.  A 12-byte buffer
that is exactly `RIFF....WEBP` is REJECTED under the name `a.webp` (Go's
sniffer additionally requires `VP` at bytes 12..13, so the sniff yields
`application/octet-stream`, which is not allow-listed); and a buffer with the
full `RIFF....WEBPVP` pattern under the name `a.png` is ACCEPTED (the `.png`
extension is allow-listed and the magic-byte check keys on the sniffed type
`image/webp`, not on the extension). -/
theorem c3_webp_claim_fails :
    validateImageFile [82, 73, 70, 70, 0, 0, 0, 0, 87, 69, 66, 80] ⟨"a.webp".toList, 12⟩ =
        Except.error ValErr.contentTypeNotAllowed ∧
      validateImageFile [82, 73, 70, 70, 0, 0, 0, 0, 87, 69, 66, 80, 86, 80]
        ⟨"a.png".toList, 14⟩ = Except.ok () :=
  ⟨rfl, rfl⟩

/-- Any buffer starting `RIFF????WEBPVP` is sniffed as `image/webp` (all
table entries before the WebP signature fail on the first or second byte). -/
theorem detect_webp (w0 w1 w2 w3 : Nat) (rest : List Nat) :
    detectContentType
      (82 :: 73 :: 70 :: 70 :: w0 :: w1 :: w2 :: w3 :: 87 :: 69 :: 66 :: 80 :: 86 :: 80 ::
        rest) = "image/webp" := by
  have hm : maskedMatch [255, 255, 255, 255, 0, 0, 0, 0, 255, 255, 255, 255, 255, 255]
      [82, 73, 70, 70, 0, 0, 0, 0, 87, 69, 66, 80, 86, 80]
      ((82 :: 73 :: 70 :: 70 :: w0 :: w1 :: w2 :: w3 :: 87 :: 69 :: 66 :: 80 :: 86 :: 80 ::
        rest).take 512) = true := by
    show maskedMatch _ _ (82 :: 73 :: 70 :: 70 :: w0 :: w1 :: w2 :: w3 :: 87 :: 69 :: 66 ::
      80 :: 86 :: 80 :: rest.take 498) = true
    simp only [maskedMatch, Nat.and_zero]
    decide
  simp only [detectContentType]
  rw [hm]
  rfl

/-- C3 amended: for every buffer whose bytes 0..3 are `RIFF`, bytes 8..11 are
`WEBP` AND bytes 12..13 are `VP` (the full pattern Go's sniffer requires),
with any valid declared size: the candidate is accepted as WebP under the
declared name `a.webp`, and it is ALSO accepted under the declared name
`a.png` — the `.png` extension is allow-listed and the signature check keys
on the sniffed content type, not on the declared extension. -/
theorem c3_webp_vp_both_names (w0 w1 w2 w3 : Nat) (rest : List Nat) (s : Nat)
    (hs0 : ¬ s = 0) (hsm : s ≤ maxImageSize) :
    validateImageFile
        (82 :: 73 :: 70 :: 70 :: w0 :: w1 :: w2 :: w3 :: 87 :: 69 :: 66 :: 80 :: 86 :: 80 ::
          rest) ⟨"a.webp".toList, s⟩ = Except.ok () ∧
      validateImageFile
        (82 :: 73 :: 70 :: 70 :: w0 :: w1 :: w2 :: w3 :: 87 :: 69 :: 66 :: 80 :: 86 :: 80 ::
          rest) ⟨"a.png".toList, s⟩ = Except.ok () := by
  have hbuf : readBuffer (82 :: 73 :: 70 :: 70 :: w0 :: w1 :: w2 :: w3 :: 87 :: 69 :: 66 ::
      80 :: 86 :: 80 :: rest) =
      82 :: 73 :: 70 :: 70 :: w0 :: w1 :: w2 :: w3 :: 87 :: 69 :: 66 :: 80 :: 86 :: 80 ::
        (rest.take 498 ++ List.replicate
          (512 - (82 :: 73 :: 70 :: 70 :: w0 :: w1 :: w2 :: w3 :: 87 :: 69 :: 66 :: 80 ::
            86 :: 80 :: rest).length) 0) := rfl
  have hdet : detectContentType (readBuffer (82 :: 73 :: 70 :: 70 :: w0 :: w1 :: w2 :: w3 ::
      87 :: 69 :: 66 :: 80 :: 86 :: 80 :: rest)) = "image/webp" := by
    rw [hbuf]
    exact detect_webp w0 w1 w2 w3 _
  have h12 : 12 ≤ (readBuffer (82 :: 73 :: 70 :: 70 :: w0 :: w1 :: w2 :: w3 :: 87 :: 69 ::
      66 :: 80 :: 86 :: 80 :: rest)).length := by
    rw [readBuffer_length]; omega
  have hver : ∀ ext : List Char,
      verifyMagicBytes (readBuffer (82 :: 73 :: 70 :: 70 :: w0 :: w1 :: w2 :: w3 :: 87 ::
        69 :: 66 :: 80 :: 86 :: 80 :: rest)) "image/webp" ext = true := by
    intro ext
    show decide (12 ≤ (readBuffer (82 :: 73 :: 70 :: 70 :: w0 :: w1 :: w2 :: w3 :: 87 ::
        69 :: 66 :: 80 :: 86 :: 80 :: rest)).length ∧
      (readBuffer (82 :: 73 :: 70 :: 70 :: w0 :: w1 :: w2 :: w3 :: 87 :: 69 :: 66 :: 80 ::
        86 :: 80 :: rest)).getD 0 0 = 82 ∧
      (readBuffer (82 :: 73 :: 70 :: 70 :: w0 :: w1 :: w2 :: w3 :: 87 :: 69 :: 66 :: 80 ::
        86 :: 80 :: rest)).getD 1 0 = 73 ∧
      (readBuffer (82 :: 73 :: 70 :: 70 :: w0 :: w1 :: w2 :: w3 :: 87 :: 69 :: 66 :: 80 ::
        86 :: 80 :: rest)).getD 2 0 = 70 ∧
      (readBuffer (82 :: 73 :: 70 :: 70 :: w0 :: w1 :: w2 :: w3 :: 87 :: 69 :: 66 :: 80 ::
        86 :: 80 :: rest)).getD 3 0 = 70 ∧
      (readBuffer (82 :: 73 :: 70 :: 70 :: w0 :: w1 :: w2 :: w3 :: 87 :: 69 :: 66 :: 80 ::
        86 :: 80 :: rest)).getD 8 0 = 87 ∧
      (readBuffer (82 :: 73 :: 70 :: 70 :: w0 :: w1 :: w2 :: w3 :: 87 :: 69 :: 66 :: 80 ::
        86 :: 80 :: rest)).getD 9 0 = 69 ∧
      (readBuffer (82 :: 73 :: 70 :: 70 :: w0 :: w1 :: w2 :: w3 :: 87 :: 69 :: 66 :: 80 ::
        86 :: 80 :: rest)).getD 10 0 = 66 ∧
      (readBuffer (82 :: 73 :: 70 :: 70 :: w0 :: w1 :: w2 :: w3 :: 87 :: 69 :: 66 :: 80 ::
        86 :: 80 :: rest)).getD 11 0 = 80) = true
    refine decide_eq_true ?_
    refine ⟨h12, ?_, ?_, ?_, ?_, ?_, ?_, ?_, ?_⟩ <;> (rw [hbuf]; rfl)
  constructor
  · rw [validate_ok_iff]
    refine ⟨hsm, hs0,
      (by decide : allowedExtensions (toLowerStr (filepathExt "a.webp".toList)) = true), ?_⟩
    simp only [contentChecks]
    rw [hdet, if_pos (show allowedMimeTypes "image/webp" = true by decide), hver]
    rfl
  · rw [validate_ok_iff]
    refine ⟨hsm, hs0,
      (by decide : allowedExtensions (toLowerStr (filepathExt "a.png".toList)) = true), ?_⟩
    simp only [contentChecks]
    rw [hdet, if_pos (show allowedMimeTypes "image/webp" = true by decide), hver]
    rfl

/-- Witness for `c3_webp_vp_both_names` with zero size-field bytes, no tail
and declared size 14. -/
theorem c3_webp_vp_both_names_witness :
    validateImageFile
        (82 :: 73 :: 70 :: 70 :: 0 :: 0 :: 0 :: 0 :: 87 :: 69 :: 66 :: 80 :: 86 :: 80 :: [])
        ⟨"a.webp".toList, 14⟩ = Except.ok () ∧
      validateImageFile
        (82 :: 73 :: 70 :: 70 :: 0 :: 0 :: 0 :: 0 :: 87 :: 69 :: 66 :: 80 :: 86 :: 80 :: [])
        ⟨"a.png".toList, 14⟩ = Except.ok () :=
  c3_webp_vp_both_names 0 0 0 0 [] 14 (by decide) (by decide)

/-- C5 counterexample: for the stored value `"a"` and base `"b"`, re-applying
`PrependBaseURL` double-prefixes (`"ba"` becomes `"bba"`). -/
theorem c5_not_a_fixed_point :
    prependBaseURL (prependBaseURL "a".toList "b".toList) "b".toList ≠
      prependBaseURL "a".toList "b".toList := by decide

theorem pat8_le_marker : "/uploads".toList <+: uploadsMarker := by decide

theorem strIndex_of_isPre (pat p : List Char) (h : List.isPrefixOf pat p = true) :
    strIndex pat p = some 0 := by
  cases p with
  | nil => simp [strIndex, h]
  | cons c rest => simp [strIndex, h]

/-- If the base contains no occurrence of `"/uploads"` at all, then the first
occurrence of the marker `"/uploads/"` in `base ++ p`, for `p` starting with
the marker, is exactly at position `base.length`. -/
theorem strIndex_marker_append (b p : List Char)
    (hp : uploadsMarker <+: p)
    (hb : strIndex "/uploads".toList b = none) :
    strIndex uploadsMarker (b ++ p) = some b.length := by
  induction b with
  | nil =>
    simp only [List.nil_append, List.length_nil]
    exact strIndex_of_isPre _ _ ( List.isPrefixOf_iff_prefix.mpr hp)
  | cons c b ih =>
    have hb1 : ¬ List.isPrefixOf "/uploads".toList (c :: b) = true := by
      intro hpre
      simp only [strIndex] at hb
      rw [if_pos hpre] at hb
      exact Option.noConfusion hb
    have hb2 : strIndex "/uploads".toList b = none := by
      simp only [strIndex] at hb
      rw [if_neg hb1] at hb
      cases hbb : strIndex "/uploads".toList b with
      | none => rfl
      | some k => rw [hbb] at hb; simp at hb
    have hmain : ¬ List.isPrefixOf uploadsMarker (c :: (b ++ p)) = true := by
      intro hpre
      have hpre' : uploadsMarker <+: (c :: b) ++ p := List.isPrefixOf_iff_prefix.mp hpre
      have hx : (c :: b) <+: (c :: b) ++ p := List.prefix_append _ _
      rcases List.prefix_or_prefix_of_prefix hpre' hx with hmb | hbm
      · exact hb1 ( List.isPrefixOf_iff_prefix.mpr ( List.IsPrefix.trans pat8_le_marker hmb))
      · have heq : c :: b = uploadsMarker.take (c :: b).length :=
          List.prefix_iff_eq_take.mp hbm
        have h9 : uploadsMarker.length = 9 := by decide
        have hlen9 : (c :: b).length ≤ 9 := by
          have hle := hbm.length_le
          omega
        have hlen1 : 1 ≤ (c :: b).length := by simp
        have hdp : uploadsMarker.drop (c :: b).length <+: p := by
          have hpre2 : uploadsMarker.take (c :: b).length ++
              uploadsMarker.drop (c :: b).length <+:
              uploadsMarker.take (c :: b).length ++ p := by
            rw [List.take_append_drop, ← heq]
            exact hpre'
          exact ( List.prefix_append_right_inj _).mp hpre2
        obtain ⟨L, hL⟩ : ∃ L, (c :: b).length = L := ⟨_, rfl⟩
        rw [hL] at heq hdp hlen9 hlen1
        interval_cases L
        · rcases List.prefix_or_prefix_of_prefix hdp hp with h | h <;>
            exact absurd h (by decide)
        · rcases List.prefix_or_prefix_of_prefix hdp hp with h | h <;>
            exact absurd h (by decide)
        · rcases List.prefix_or_prefix_of_prefix hdp hp with h | h <;>
            exact absurd h (by decide)
        · rcases List.prefix_or_prefix_of_prefix hdp hp with h | h <;>
            exact absurd h (by decide)
        · rcases List.prefix_or_prefix_of_prefix hdp hp with h | h <;>
            exact absurd h (by decide)
        · rcases List.prefix_or_prefix_of_prefix hdp hp with h | h <;>
            exact absurd h (by decide)
        · rcases List.prefix_or_prefix_of_prefix hdp hp with h | h <;>
            exact absurd h (by decide)
        · exact hb1 (by rw [heq]; decide)
        · exact hb1 (by rw [heq]; decide)
    simp only [List.cons_append, strIndex, List.append_eq]
    rw [if_neg hmain, ih hb2]
    simp

/-- C5 amended: re-applying `PrependBaseURL` with the same base is a fixed
point for every stored path of the shape the module itself produces (starting
with `/uploads/`) and every base that does not contain `"/uploads"`; for
arbitrary stored values and bases the round trip double-prefixes
(`c5_not_a_fixed_point`). -/
theorem c5_fixed_point_on_stored_paths (p b : List Char)
    (hp : List.isPrefixOf uploadsMarker p = true)
    (hb : strIndex "/uploads".toList b = none) :
    prependBaseURL (prependBaseURL p b) b = prependBaseURL p b := by
  have hp' : uploadsMarker <+: p := List.isPrefixOf_iff_prefix.mp hp
  have hpne : ¬ p = [] := by
    intro h
    rw [h] at hp
    exact absurd hp (by decide)
  by_cases hbe : b = []
  · subst hbe
    simp [prependBaseURL]
  · have h1 : prependBaseURL p b = b ++ p := by
      simp only [prependBaseURL]
      rw [if_neg (by simp [hpne, hbe]), strIndex_of_isPre _ _ hp]
      simp
    rw [h1]
    simp only [prependBaseURL]
    rw [if_neg (by simp [hpne, hbe]), strIndex_marker_append b p hp' hb]
    simp [List.drop_left]

/-- Witness for `c5_fixed_point_on_stored_paths` on a stored asset URL and an
`http` base. -/
theorem c5_fixed_point_on_stored_paths_witness :
    prependBaseURL (prependBaseURL "/uploads/news/x.jpg".toList "http://h".toList)
        "http://h".toList =
      prependBaseURL "/uploads/news/x.jpg".toList "http://h".toList :=
  c5_fixed_point_on_stored_paths "/uploads/news/x.jpg".toList "http://h".toList
    (by decide) (by decide)

